import Mathlib

/-
Verification of the ASAP-AES cross-validation harness
(`asap_essay_scoring/cross_predict.py`) and of the `token_features` stage of
the file pipeline (`asap_essay_scoring/pipeline.py`).

The Python code is shallowly embedded: pandas DataFrames become lists,
row indices become `Nat`, a bare Python `assert` becomes `Except PyError`
with the payload-free `PyError.assertionError` (a bare `assert cond` raises
`AssertionError()` carrying no message), and float arithmetic on train/test
ratios is modelled over `ℚ` (for `token_features`, over `ℝ`, since `np.std`
takes a square root).

Two external collaborators are modelled at the level of their contracts:
  * `sklearn.model_selection.StratifiedKFold(n_splits, shuffle=True)` driven
    by the process-global numpy RNG: the per-class allocation of
    `_make_test_folds` is translated (sorted per-class fold multiset built
    from strided residues, then shuffled, then assigned to the rows of the
    class in row order); the Mersenne-Twister shuffle itself is replaced by
    a deterministic permutation keyed by an explicit RNG-state argument,
    which preserves exactly what the harness relies on: the result is a
    permutation, and it is a function of the seeded state.
  * the learner (`./learners.py`): an arbitrary function from
    hyperparameters, training data and a feature table to predictions.
-/

/-- Python exception raised by a bare `assert` statement: `AssertionError()`
with no arguments, hence a type with a single payload-free constructor. -/
inductive PyError where
  | assertionError : PyError
deriving DecidableEq

/-- Modelled from the spec: the repository's Dataset accessor (its module is
not under src/; `cross_predict.py` only consumes it). Feature rows `X`,
labels `y` and group labels `group`, aligned by position (spec section 3). -/
structure Dataset (χ υ : Type) where
  X : List χ
  y : List υ
  group : List Nat
deriving DecidableEq

/-- Modelled from the spec: `Dataset.select(idx)` returns the dataset
restricted to the given rows, preserving X/y/group alignment (spec 4.5). -/
def Dataset.select [Inhabited χ] [Inhabited υ] (d : Dataset χ υ) (idx : List Nat) :
    Dataset χ υ :=
  ⟨idx.map (fun r => d.X.getD r default),
   idx.map (fun r => d.y.getD r default),
   idx.map (fun r => d.group.getD r 0)⟩

/-- `np.random.seed(n)`: the freshly seeded global RNG state. -/
def npSeed (n : Nat) : Nat := n

/-- One step of the modelled RNG stream (stand-in for advancing numpy's
global Mersenne-Twister state). -/
def lcg (s : Nat) : Nat := (1103515245 * s + 12345) % 2 ^ 31

/-- Model of `rng.shuffle`: a deterministic permutation of the input keyed by
the RNG state, together with the advanced state.  The harness relies only on
the output being a permutation that is a function of the seeded state. -/
def npShuffle (s : Nat) (l : List Nat) : Nat × List Nat :=
  (lcg s, l.rotate (s % (l.length + 1)))

/-- Class labels in order of first occurrence, as produced by the
double-`np.unique` encoding in `StratifiedKFold._make_test_folds`. -/
def classesOf (gs : List Nat) : List Nat :=
  gs.foldl (fun acc g => if g ∈ acc then acc else acc ++ [g]) []

/-- `np.bincount(y_encoded)` restricted to the classes present: the number of
rows of each class, listed in class-encoding order. -/
def countsOf (gs : List Nat) : List Nat :=
  (classesOf gs).map (fun c => gs.count c)

/-- `np.arange(n_splits).repeat(allocation[:, k])` of `_make_test_folds`:
class `k` occupies the positions `[offset, offset + cnt)` of the sorted
encoded label vector `y_order`, and `allocation[i][k]` counts the positions
`p` of that block with `p % n_splits = i`; repeating each fold id `i`
`allocation[i][k]` times in ascending order is exactly the ascending sort of
the residues of the block. -/
def foldsForClass (nsplits offset cnt : Nat) : List Nat :=
  List.insertionSort (· ≤ ·) ((List.range cnt).map (fun t => (offset + t) % nsplits))

/-- The per-class loop of `_make_test_folds`: for each class (in encoding
order) shuffle its fold-id multiset with the running RNG state. -/
def assignLoop (nsplits : Nat) : Nat → Nat → List Nat → List (List Nat)
  | _, _, [] => []
  | s, off, c :: cs =>
    let sl := npShuffle s (foldsForClass nsplits off c)
    sl.2 :: assignLoop nsplits sl.1 (off + c) cs

/-- Rank of row `r` among the rows of its own class (the position at which
`test_folds[y_encoded == k] = folds_for_class` writes row `r`). -/
def rankIn (gs : List Nat) (r : Nat) : Nat :=
  (gs.take r).count (gs.getD r 0)

/-- Encoded class of row `r`. -/
def classIdxOf (gs : List Nat) (r : Nat) : Nat :=
  (classesOf gs).indexOf (gs.getD r 0)

/-- Model of `StratifiedKFold._make_test_folds(X, y=group)` with
`shuffle=True` and the global RNG in state `s0`: the test-fold id assigned
to each row. -/
def makeTestFolds (s0 nsplits : Nat) (gs : List Nat) : List Nat :=
  let asg := assignLoop nsplits s0 0 (countsOf gs)
  (List.range gs.length).map (fun r =>
    (asg.getD (classIdxOf gs r) []).getD (rankIn gs r) 0)

/-- One entry of `self.folds`: the dict `{'train': train_index, 'test':
test_index}` built from `kfs.split`. -/
structure Fold where
  train : List Nat
  test : List Nat
deriving DecidableEq

/-- `kfs.split(X, group)` materialised as in `CrossPredict.__init__`: fold
`i` has test set `{r | test_folds[r] = i}` and train set its complement,
both in ascending row order. -/
def foldsFromAssign (nsplits nrows : Nat) (tf : List Nat) : List Fold :=
  (List.range nsplits).map (fun i =>
    ⟨(List.range nrows).filter (fun r => !(tf.getD r 0 == i)),
     (List.range nrows).filter (fun r => tf.getD r 0 == i)⟩)

/-- One row of the DataFrame built by `CrossPredict._train_and_predict`:
columns `pred`, `truth`, `idx`, `essay_set`. -/
structure Record (ν υ : Type) where
  pred : ν
  truth : υ
  idx : Nat
  essay_set : Nat
deriving DecidableEq

/-- The harness state after `CrossPredict.__init__` has stored its inputs
and computed `self.folds`.  The learner class is embedded as a function:
`Learner p train testX` is the prediction of a fresh learner constructed
with hyperparameters `p`, trained on `train`, applied to feature table
`testX` (`learner = self.Learner(params=...)`, `learner.train(...)`,
`learner.predict(...)` in the source). -/
structure CrossPredict (χ υ π ν : Type) where
  data : Dataset χ υ
  params : π
  Learner : π → Dataset χ υ → List χ → List ν
  folds : List Fold

/-- `copy.deepcopy` at the level of immutable Lean values is the identity;
the heap-level model `trainUnitHeap` below captures the mutation-protection
it buys. -/
def deepcopy (p : π) : π := p

/-- `self.keys.essay_set[r]` (the index registry maps row `r` to
`data.group[r]`). -/
def CrossPredict.groupOf (cp : CrossPredict χ υ π ν) (r : Nat) : Nat :=
  cp.data.group.getD r 0

/-- `self.keys.iloc[rows].essay_set`: group labels of the given rows. -/
def CrossPredict.groupsAt (cp : CrossPredict χ υ π ν) (rows : List Nat) : List Nat :=
  rows.map cp.groupOf

/-- The keys of a pandas `groupby` over the given label list: the distinct
labels in ascending order. -/
def sortedKeys (l : List Nat) : List Nat :=
  List.insertionSort (· ≤ ·) l.dedup

/-- Row-wise assembly of the DataFrame
`{'pred': ..., 'truth': ..., 'idx': ..., 'essay_set': ...}` (pandas requires
the four columns to have equal length; the learner contract guarantees it
at every call site). -/
def mkRecords : List ν → List υ → List Nat → List Nat → List (Record ν υ)
  | p :: ps, t :: ts, i :: ri, e :: re => ⟨p, t, i, e⟩ :: mkRecords ps ts ri re
  | _, _, _, _ => []

/-- `CrossPredict._train_and_predict(train_idx, test_idx)`. -/
def CrossPredict._train_and_predict [Inhabited χ] [Inhabited υ]
    (cp : CrossPredict χ υ π ν) (train_idx test_idx : List Nat) : List (Record ν υ) :=
  let train_data := cp.data.select train_idx
  let test_data := cp.data.select test_idx
  let preds := cp.Learner (deepcopy cp.params) train_data test_data.X
  mkRecords preds test_data.y test_idx (cp.groupsAt test_idx)

/-- `CrossPredict._train_and_predict_one_fold(k)`: slice fold `k`, group
train and test rows by essay set, `assert essays == trn_es.groups.keys()`
(dict-keys comparison, i.e. set equality; both key views are in ascending
order), then concatenate the per-essay-set predictions. -/
def CrossPredict._train_and_predict_one_fold [Inhabited χ] [Inhabited υ]
    (cp : CrossPredict χ υ π ν) (k : Nat) : Except PyError (List (Record ν υ)) :=
  let trn := (cp.folds.getD k ⟨[], []⟩).train
  let tst := (cp.folds.getD k ⟨[], []⟩).test
  let essays := sortedKeys (cp.groupsAt tst)
  if essays = sortedKeys (cp.groupsAt trn) then
    .ok (essays.flatMap (fun e =>
      cp._train_and_predict
        (trn.filter (fun r => cp.groupOf r == e))
        (tst.filter (fun r => cp.groupOf r == e))))
  else
    .error .assertionError

/-- The list comprehension `[self._train_and_predict_one_fold(k) for k in
kr]`: evaluated head first, aborting at the first raised assertion. -/
def allFoldResults [Inhabited χ] [Inhabited υ]
    (cp : CrossPredict χ υ π ν) : List Nat → Except PyError (List (List (Record ν υ)))
  | [] => .ok []
  | k :: ks =>
    match cp._train_and_predict_one_fold k, allFoldResults cp ks with
    | .error e, _ => .error e
    | .ok _, .error e => .error e
    | .ok r, .ok rs => .ok (r :: rs)

/-- Ordering used by `preds.sort_values('idx')`. -/
def recordLe (a b : Record ν υ) : Prop := a.idx ≤ b.idx

instance : DecidableRel (@recordLe ν υ) := fun a b => Nat.decLe a.idx b.idx

instance : IsTotal (Record ν υ) recordLe := ⟨fun a b => Nat.le_total a.idx b.idx⟩

instance : IsTrans (Record ν υ) recordLe := ⟨fun _ _ _ => Nat.le_trans⟩

/-- `CrossPredict.cross_predict()`: concatenate all folds and sort by `idx`. -/
def CrossPredict.cross_predict [Inhabited χ] [Inhabited υ]
    (cp : CrossPredict χ υ π ν) : Except PyError (List (Record ν υ)) :=
  match allFoldResults cp (List.range cp.folds.length) with
  | .error e => .error e
  | .ok rss => .ok (List.insertionSort recordLe rss.flatten)

/-- `CrossPredict._count_per_essay_set(k, rows)`: rows `[fold, essay_set,
count]` for each essay set present among `rows`, sorted by essay set. -/
def CrossPredict._count_per_essay_set (cp : CrossPredict χ υ π ν)
    (k : Nat) (rows : List Nat) : List (Nat × Nat × Nat) :=
  (sortedKeys (cp.groupsAt rows)).map (fun e => (k, e, (cp.groupsAt rows).count e))

/-- The concatenated `train_counts` table of
`analyze_cross_predict_structure`. -/
def CrossPredict.trainCounts (cp : CrossPredict χ υ π ν) : List (Nat × Nat × Nat) :=
  (List.range cp.folds.length).flatMap (fun k =>
    cp._count_per_essay_set k (cp.folds.getD k ⟨[], []⟩).train)

/-- The concatenated `test_counts` table of
`analyze_cross_predict_structure`. -/
def CrossPredict.testCounts (cp : CrossPredict χ υ π ν) : List (Nat × Nat × Nat) :=
  (List.range cp.folds.length).flatMap (fun k =>
    cp._count_per_essay_set k (cp.folds.getD k ⟨[], []⟩).test)

/-- `train_counts.merge(test_counts, on=['fold', 'essay_set'],
how='inner')`: keep a train row only when a test row with the same (fold,
essay_set) key exists, pairing the two counts. -/
def mergeCounts (tr te : List (Nat × Nat × Nat)) : List (Nat × Nat × Nat × Nat) :=
  tr.filterMap (fun a =>
    match te.find? (fun b => b.1 == a.1 && b.2.1 == a.2.1) with
    | some b => some (a.1, a.2.1, a.2.2, b.2.2)
    | none => none)

/-- The joined `df` of `analyze_cross_predict_structure`: rows
`(fold, essay_set, train_count, test_count)`. -/
def CrossPredict.merged (cp : CrossPredict χ υ π ν) : List (Nat × Nat × Nat × Nat) :=
  mergeCounts cp.trainCounts cp.testCounts

/-- `ratios = df.train_count/df.test_count` (float division modelled
exactly over `ℚ`). -/
def CrossPredict.ratios (cp : CrossPredict χ υ π ν) : List ℚ :=
  cp.merged.map (fun m => (m.2.2.1 : ℚ) / (m.2.2.2 : ℚ))

/-- `ratios.max()` (the value is irrelevant when the series is empty: see
`analyze_cross_predict_structure`). -/
def CrossPredict.max_ratio (cp : CrossPredict χ υ π ν) : ℚ :=
  match cp.ratios with
  | [] => 0
  | r :: rs => rs.foldl max r

/-- `ratios.min()`. -/
def CrossPredict.min_ratio (cp : CrossPredict χ υ π ν) : ℚ :=
  match cp.ratios with
  | [] => 0
  | r :: rs => rs.foldl min r

/-- `CrossPredict.analyze_cross_predict_structure()`: rebuild the per-(fold,
essay set) counts, inner-join them, and `assert max_ratio/min_ratio < 1.02`.
On an empty join pandas yields `NaN` for both extremes and `NaN < 1.02` is
false, so the assertion also fails then; hence the success condition is
`ratios ≠ [] ∧ max_ratio/min_ratio < 51/50`. -/
def CrossPredict.analyze_cross_predict_structure (cp : CrossPredict χ υ π ν) :
    Except PyError (List (Nat × Nat × Nat × Nat)) :=
  if cp.ratios ≠ [] ∧ cp.max_ratio / cp.min_ratio < 51 / 50 then
    .ok cp.merged
  else
    .error .assertionError

/-- The fold-computing part of `CrossPredict.__init__`: `np.random.seed(0)`
overwrites the ambient global RNG state `globalRng` with the fixed seed `0`,
then `StratifiedKFold(n_splits=n_fold, shuffle=True)` is split on
`(data.X, data.group)`. -/
def CrossPredict.init (globalRng : Nat) (data : Dataset χ υ)
    (Learner : π → Dataset χ υ → List χ → List ν) (hyperparameters : π)
    (n_fold : Nat) : CrossPredict χ υ π ν :=
  let _ := globalRng
  { data := data
    params := hyperparameters
    Learner := Learner
    folds := foldsFromAssign n_fold data.X.length
      (makeTestFolds (npSeed 0) n_fold data.group) }

/-- All of `CrossPredict.__init__`: compute the folds, then run the
structural self-check, aborting construction when its assertion fails. -/
def CrossPredict.initChecked (globalRng : Nat) (data : Dataset χ υ)
    (Learner : π → Dataset χ υ → List χ → List ν) (hyperparameters : π)
    (n_fold : Nat) : Except PyError (CrossPredict χ υ π ν) :=
  match (CrossPredict.init globalRng data Learner hyperparameters n_fold).analyze_cross_predict_structure with
  | .ok _ => .ok (CrossPredict.init globalRng data Learner hyperparameters n_fold)
  | .error e => .error e

/-- The rows of essay set `e` in the full index registry (the `.ref` column
of `keys.groupby('essay_set').get_group(e)`). -/
def CrossPredict.groupRows (cp : CrossPredict χ υ π ν) (e : Nat) : List Nat :=
  (List.range cp.data.y.length).filter (fun r => cp.groupOf r == e)

/-- `CrossPredict.cheat()`: group the full index registry by essay set and
train/predict with the same rows on both sides. -/
def CrossPredict.cheat [Inhabited χ] [Inhabited υ]
    (cp : CrossPredict χ υ π ν) : List (Record ν υ) :=
  let refs := List.range cp.data.y.length
  let essays := sortedKeys (cp.groupsAt refs)
  essays.flatMap (fun e =>
    cp._train_and_predict
      (refs.filter (fun r => cp.groupOf r == e))
      (refs.filter (fun r => cp.groupOf r == e)))

/-- Heap model of Python object identity for the hyperparameter object:
a heap is a list of objects, a reference an index into it.
`copy.deepcopy(self.params)` in `_train_and_predict` allocates a fresh cell
holding a copy of the referenced value. -/
def deepcopyAlloc (h : List π) (r : Nat) (d : π) : List π × Nat :=
  (h ++ [h.getD r d], h.length)

/-- One (fold, essay set) training unit at the heap level: deep-copy the
shared hyperparameters at reference `r`, hand the copy to the freshly
instantiated learner, which may mutate its own copy arbitrarily
(`mutate`). -/
def trainUnitHeap (d : π) (mutate : π → π) (h : List π) (r : Nat) : List π :=
  let alloc := deepcopyAlloc h r d
  alloc.1.set alloc.2 (mutate (alloc.1.getD alloc.2 d))

/-- A whole `cross_predict()`/`cheat()` run at the heap level: one training
unit per (fold, essay set) combination, each with its own learner-mutation
behaviour. -/
def runUnitsHeap (d : π) (r : Nat) (ms : List (π → π)) (h : List π) : List π :=
  ms.foldl (fun hh m => trainUnitHeap d m hh r) h

/-- `np.mean` of a list of token lengths: `NaN` (modelled as `none`) on an
empty list, otherwise the arithmetic mean. -/
noncomputable def npMean (xs : List Nat) : Option ℝ :=
  if xs.isEmpty then none
  else some ((xs.map (fun x => (x : ℝ))).sum / xs.length)

/-- `np.std` (population standard deviation): `NaN` on an empty list,
otherwise the square root of the mean squared deviation. -/
noncomputable def npStd (xs : List Nat) : Option ℝ :=
  if xs.isEmpty then none
  else
    some (Real.sqrt
      ((xs.map (fun x =>
          ((x : ℝ) - (xs.map (fun t => (t : ℝ))).sum / xs.length) ^ 2)).sum / xs.length))

/-- The table built by `token_features` in `pipeline.py`: one row per
tokenized document, columns `word_len_mean` and `word_len_std` over the
token lengths of the document.  (Reading `infile` and `df.to_csv` are file
round-trips outside the embedded core; the function is modelled on the
loaded document list.) -/
noncomputable def token_features (doc_list : List (List String)) :
    List (Option ℝ × Option ℝ) :=
  doc_list.map (fun essay =>
    (npMean (essay.map String.length), npStd (essay.map String.length)))

/-! ### Generic list lemmas -/

/-- A property holding for every element of a list and for the default holds
for `getD` at any position. -/
theorem getD_prop {α : Type} {P : α → Prop} : ∀ {l : List α} {d : α}, (∀ x ∈ l, P x) →
    P d → ∀ i : Nat, P (l.getD i d)
  | [], _, _, hd, _ => hd
  | x :: _, _, h, _, 0 => h x (List.mem_cons_self x _)
  | _ :: xs, d, h, hd, i + 1 => by
    rw [List.getD_cons_succ]
    exact getD_prop (fun y hy => h y (List.mem_cons_of_mem _ hy)) hd i

/-- Element count of the blockwise decomposition of `l` along the distinct
key values `es`. -/
theorem count_flatMap_filter (l : List Nat) (f : Nat → Nat) (a : Nat) :
    ∀ es : List Nat, es.Nodup →
      (es.flatMap (fun e => l.filter (fun x => f x == e))).count a
        = if f a ∈ es then l.count a else 0
  | [], _ => by simp
  | e :: es, hnd => by
    have hnd2 := hnd
    rw [List.nodup_cons] at hnd2
    rw [List.flatMap_cons, List.count_append,
      count_flatMap_filter l f a es hnd2.2]
    by_cases hfa : f a = e
    · have h1 : List.count a (l.filter (fun x => f x == e)) = List.count a l :=
        List.count_filter (by simp [hfa])
      have h2 : f a ∉ es := hfa ▸ hnd2.1
      rw [h1, if_neg h2, if_pos (by simp [hfa])]
      exact Nat.add_zero _
    · have h1 : a ∉ l.filter (fun x => f x == e) := by
        intro hmem
        have := (List.mem_filter.mp hmem).2
        exact hfa (by simpa using this)
      rw [List.count_eq_zero_of_not_mem h1]
      by_cases hmem : f a ∈ es <;> simp [hmem, hfa]

/-- Splitting a list into the blocks sharing each key value of a duplicate-free
key list covering all its elements is a permutation. -/
theorem partitionPerm {l : List Nat} {f : Nat → Nat} {es : List Nat}
    (hnd : es.Nodup) (hmem : ∀ x ∈ l, f x ∈ es) :
    (es.flatMap (fun e => l.filter (fun x => f x == e))).Perm l := by
  rw [List.perm_iff_count]
  intro a
  rw [count_flatMap_filter l f a es hnd]
  by_cases hal : a ∈ l
  · simp [hmem a hal]
  · rw [List.count_eq_zero_of_not_mem hal]
    by_cases h : f a ∈ es <;> simp [h]

/-- `flatMap` only depends on the function values on the list. -/
theorem flatMap_congr {α β : Type} {f g : α → List β} :
    ∀ {l : List α}, (∀ a ∈ l, f a = g a) → l.flatMap f = l.flatMap g
  | [], _ => rfl
  | x :: xs, h => by
    rw [List.flatMap_cons, List.flatMap_cons, h x (List.mem_cons_self x xs),
      flatMap_congr (fun a ha => h a (List.mem_cons_of_mem _ ha))]

/-- `List.range` is sorted for `≤`. -/
theorem sorted_le_range (n : Nat) : List.Sorted (· ≤ ·) (List.range n) :=
  List.Pairwise.imp Nat.le_of_lt (List.pairwise_lt_range n)

/-! ### `sortedKeys` (pandas groupby key views) -/

theorem sortedKeys_nodup (l : List Nat) : (sortedKeys l).Nodup :=
  (List.perm_insertionSort (· ≤ ·) l.dedup).symm.nodup (List.nodup_dedup l)

theorem mem_sortedKeys {a : Nat} {l : List Nat} : a ∈ sortedKeys l ↔ a ∈ l :=
  ((List.perm_insertionSort (· ≤ ·) l.dedup).mem_iff).trans List.mem_dedup

theorem sortedKeys_sorted (l : List Nat) : List.Sorted (· ≤ ·) (sortedKeys l) :=
  List.sorted_insertionSort (· ≤ ·) l.dedup

theorem toFinset_sortedKeys (l : List Nat) : (sortedKeys l).toFinset = l.toFinset := by
  ext a
  simp [List.mem_toFinset, mem_sortedKeys]

/-- Two pandas groupby key views coincide exactly when the two label lists
have the same underlying set. -/
theorem sortedKeys_eq_iff {l₁ l₂ : List Nat} :
    sortedKeys l₁ = sortedKeys l₂ ↔ l₁.toFinset = l₂.toFinset := by
  constructor
  · intro h
    rw [← toFinset_sortedKeys l₁, ← toFinset_sortedKeys l₂, h]
  · intro h
    have hp : (sortedKeys l₁).Perm (sortedKeys l₂) :=
      (List.perm_insertionSort (· ≤ ·) l₁.dedup).trans
        ((List.toFinset_eq_iff_perm_dedup.mp h).trans
          (List.perm_insertionSort (· ≤ ·) l₂.dedup).symm)
    exact List.eq_of_perm_of_sorted hp (sortedKeys_sorted l₁) (sortedKeys_sorted l₂)

/-! ### Bounds on the modelled fold assignment -/

theorem foldsForClass_mem {nsplits off cnt : Nat} (hn : 0 < nsplits) :
    ∀ x ∈ foldsForClass nsplits off cnt, x < nsplits := by
  intro x hx
  have hx2 := (List.perm_insertionSort (· ≤ ·) _).mem_iff.mp hx
  obtain ⟨t, _, rfl⟩ := List.mem_map.mp hx2
  exact Nat.mod_lt _ hn

theorem assignLoop_mem {nsplits : Nat} (hn : 0 < nsplits) :
    ∀ (cs : List Nat) (s off : Nat), ∀ l ∈ assignLoop nsplits s off cs, ∀ x ∈ l, x < nsplits
  | [], _, _, l, hl => by simp [assignLoop] at hl
  | c :: cs, s, off, l, hl => by
    rw [assignLoop] at hl
    rcases List.mem_cons.mp hl with h | h
    · intro x hx
      have : x ∈ foldsForClass nsplits off c := by
        rw [h] at hx
        exact List.mem_rotate.mp hx
      exact foldsForClass_mem hn x this
    · exact assignLoop_mem hn cs _ _ l h

/-- Every assigned test-fold id is a genuine fold index. -/
theorem makeTestFolds_lt {s0 nsplits : Nat} {gs : List Nat} (hn : 0 < nsplits)
    (r : Nat) : (makeTestFolds s0 nsplits gs).getD r 0 < nsplits := by
  have hinner : ∀ L ∈ assignLoop nsplits s0 0 (countsOf gs), ∀ i : Nat, L.getD i 0 < nsplits := by
    intro L hL i
    exact getD_prop (assignLoop_mem hn _ _ _ L hL) hn i
  have hval : ∀ r2 : Nat,
      ((assignLoop nsplits s0 0 (countsOf gs)).getD (classIdxOf gs r2) []).getD
        (rankIn gs r2) 0 < nsplits := by
    intro r2
    have hd : ([] : List Nat).getD (rankIn gs r2) 0 < nsplits := by
      rw [List.getD_nil]; exact hn
    exact @getD_prop (List Nat) (fun L => L.getD (rankIn gs r2) 0 < nsplits)
      (assignLoop nsplits s0 0 (countsOf gs)) [] (fun L hL => hinner L hL _) hd
      (classIdxOf gs r2)
  unfold makeTestFolds
  exact @getD_prop Nat (fun x => x < nsplits) _ 0
    (fun x hx => by
      obtain ⟨r2, _, rfl⟩ := List.mem_map.mp hx
      exact hval r2) hn r

/-! ### Shape of the computed folds -/

theorem foldsFromAssign_length (nsplits nrows : Nat) (tf : List Nat) :
    (foldsFromAssign nsplits nrows tf).length = nsplits := by
  simp [foldsFromAssign]

theorem foldsFromAssign_getD (nsplits nrows : Nat) (tf : List Nat) {k : Nat}
    (hk : k < nsplits) :
    (foldsFromAssign nsplits nrows tf).getD k ⟨[], []⟩ =
      ⟨(List.range nrows).filter (fun r => !(tf.getD r 0 == k)),
       (List.range nrows).filter (fun r => tf.getD r 0 == k)⟩ := by
  unfold foldsFromAssign
  rw [List.getD_eq_getElem?_getD, List.getElem?_map, List.getElem?_range hk]
  rfl

/-- Concatenating the test blocks of all folds is a permutation of the rows. -/
theorem tests_perm (nsplits nrows : Nat) (tf : List Nat)
    (htf : ∀ r, tf.getD r 0 < nsplits) :
    ((List.range nsplits).flatMap
      (fun k => (List.range nrows).filter (fun r => tf.getD r 0 == k))).Perm
      (List.range nrows) :=
  partitionPerm (List.nodup_range nsplits)
    (fun x _ => List.mem_range.mpr (htf x))

/-! ### The `idx` column of assembled prediction tables -/

theorem mkRecords_map_idx {ν υ : Type} :
    ∀ (ri : List Nat) (ps : List ν) (ts : List υ) (re : List Nat),
      ps.length = ri.length → ts.length = ri.length → re.length = ri.length →
      (mkRecords ps ts ri re).map (fun rec => rec.idx) = ri
  | [], ps, ts, re, _, _, _ => by
    cases ps <;> cases ts <;> cases re <;> simp [mkRecords]
  | i :: ri, ps, ts, re, hp, ht, he => by
    cases ps with
    | nil => exact absurd hp (by simp)
    | cons p ps =>
      cases ts with
      | nil => exact absurd ht (by simp)
      | cons t ts =>
        cases re with
        | nil => exact absurd he (by simp)
        | cons e re =>
          simp only [mkRecords, List.map_cons, List.cons.injEq, true_and]
          exact mkRecords_map_idx ri ps ts re
            (by simpa using hp) (by simpa using ht) (by simpa using he)

/-- The `idx` column of `_train_and_predict(train_idx, test_idx)` is exactly
`test_idx`, given the learner contract (one prediction per feature row). -/
theorem train_and_predict_map_idx [Inhabited χ] [Inhabited υ]
    (cp : CrossPredict χ υ π ν)
    (hL : ∀ (q : π) (dd : Dataset χ υ) (xs : List χ), (cp.Learner q dd xs).length = xs.length)
    (train_idx test_idx : List Nat) :
    (cp._train_and_predict train_idx test_idx).map (fun rec => rec.idx) = test_idx := by
  unfold CrossPredict._train_and_predict
  apply mkRecords_map_idx
  · rw [hL]
    simp [Dataset.select]
  · simp [Dataset.select]
  · simp [CrossPredict.groupsAt]

/-- A successful `_train_and_predict_one_fold(k)` produces records whose
`idx` column is a permutation of the fold's test rows. -/
theorem one_fold_ok_perm [Inhabited χ] [Inhabited υ]
    (cp : CrossPredict χ υ π ν)
    (hL : ∀ (q : π) (dd : Dataset χ υ) (xs : List χ), (cp.Learner q dd xs).length = xs.length)
    (k : Nat) {rs : List (Record ν υ)}
    (hok : cp._train_and_predict_one_fold k = .ok rs) :
    (rs.map (fun rec => rec.idx)).Perm ((cp.folds.getD k ⟨[], []⟩).test) := by
  unfold CrossPredict._train_and_predict_one_fold at hok
  by_cases hcond :
      sortedKeys (cp.groupsAt (cp.folds.getD k ⟨[], []⟩).test)
        = sortedKeys (cp.groupsAt (cp.folds.getD k ⟨[], []⟩).train)
  · rw [if_pos hcond] at hok
    have hrs := Except.ok.inj hok.symm
    subst hrs
    rw [List.map_flatMap]
    have hcg : ∀ e ∈ sortedKeys (cp.groupsAt (cp.folds.getD k ⟨[], []⟩).test),
        (cp._train_and_predict
          ((cp.folds.getD k ⟨[], []⟩).train.filter (fun r => cp.groupOf r == e))
          ((cp.folds.getD k ⟨[], []⟩).test.filter (fun r => cp.groupOf r == e))).map
            (fun rec => rec.idx)
          = (cp.folds.getD k ⟨[], []⟩).test.filter (fun r => cp.groupOf r == e) := by
      intro e _
      exact train_and_predict_map_idx cp hL _ _
    rw [flatMap_congr hcg]
    exact partitionPerm (sortedKeys_nodup _)
      (fun x hx => mem_sortedKeys.mpr (List.mem_map.mpr ⟨x, hx, rfl⟩))
  · rw [if_neg hcond] at hok
    exact absurd hok (by simp)

/-- Concatenating the records of a successful run over the folds in `ks`
yields an `idx` column that is a permutation of the concatenated test sets. -/
theorem allFoldResults_ok_perm [Inhabited χ] [Inhabited υ]
    (cp : CrossPredict χ υ π ν)
    (hL : ∀ (q : π) (dd : Dataset χ υ) (xs : List χ), (cp.Learner q dd xs).length = xs.length) :
    ∀ (ks : List Nat) (rss : List (List (Record ν υ))),
      allFoldResults cp ks = .ok rss →
      (rss.flatten.map (fun rec => rec.idx)).Perm
        (ks.flatMap (fun k => (cp.folds.getD k ⟨[], []⟩).test))
  | [], rss, h => by
    have : rss = [] := by
      simpa [allFoldResults] using h.symm
    subst this
    simp
  | k :: ks, rss, h => by
    rw [allFoldResults] at h
    cases h1 : cp._train_and_predict_one_fold k with
    | error e => rw [h1] at h; exact absurd h (by simp)
    | ok r =>
      cases h2 : allFoldResults cp ks with
      | error e => rw [h1, h2] at h; exact absurd h (by simp)
      | ok rs =>
        rw [h1, h2] at h
        have hrss : rss = r :: rs := Except.ok.inj h.symm
        subst hrss
        rw [List.flatten_cons, List.map_append, List.flatMap_cons]
        exact (one_fold_ok_perm cp hL k h1).append
          (allFoldResults_ok_perm cp hL ks rs h2)

/-! ### Heap-level frame property of `copy.deepcopy` -/

/-- One training unit leaves the cell of the shared hyperparameters intact
(the learner mutates only the freshly allocated copy) and grows the heap by
one cell. -/
theorem trainUnitHeap_frame {π : Type} (d : π) (m : π → π) {h : List π} {r : Nat}
    (hr : r < h.length) :
    (trainUnitHeap d m h r).getD r d = h.getD r d ∧
      (trainUnitHeap d m h r).length = h.length + 1 := by
  constructor
  · unfold trainUnitHeap deepcopyAlloc
    rw [List.getD_eq_getElem?_getD, List.getElem?_set_ne (Nat.ne_of_gt hr),
      List.getElem?_append_left hr,
      ← List.getD_eq_getElem?_getD]
  · unfold trainUnitHeap deepcopyAlloc
    rw [List.length_set, List.length_append]
    rfl

/-! ### Concrete inputs used by the closed instantiations below -/

/-- A four-row, one-essay-set dataset. -/
def dW : Dataset Nat Nat := ⟨[10, 11, 12, 13], [5, 6, 7, 8], [0, 0, 0, 0]⟩

/-- A contract-conforming learner: predicts `0` for every test row. -/
def LW : Nat → Dataset Nat Nat → List Nat → List Nat := fun _ _ xs => xs.map (fun _ => 0)

/-- The harness constructed on `dW` with two folds. -/
def cpW : CrossPredict Nat Nat Nat Nat := CrossPredict.init 0 dW LW 0 2

/-- A harness state whose two folds both separate the essay sets between
train and test rows (train rows all of essay set 0, test rows all of essay
set 1, and vice versa), so that the group-mismatch assertion fires in each
fold. -/
def cpC8 : CrossPredict Nat Nat Nat Nat :=
  { data := ⟨[10, 11, 12, 13], [5, 6, 7, 8], [0, 0, 1, 1]⟩
    params := 0
    Learner := LW
    folds := [⟨[0, 1], [2, 3]⟩, ⟨[2, 3], [0, 1]⟩] }

/-- A train-count table holding the pairs (fold 0, essay set 0) and
(fold 0, essay set 1). -/
def trW : List (Nat × Nat × Nat) := [(0, 0, 3), (0, 1, 2)]

/-- A test-count table holding only the pair (fold 0, essay set 0): essay
set 1 is absent from the fold's test rows. -/
def teW : List (Nat × Nat × Nat) := [(0, 0, 3)]

/-- A two-document corpus: one two-token document and one empty document. -/
def dlW : List (List String) := [["ab", "cd"], []]

/-! ### Claims -/

/-- C2: for every constructed harness, each fold's train and test index sets
are disjoint, every test index is a genuine row index, and every row index
lies in the test set of exactly one fold (standard k-fold coverage). -/
theorem init_folds_partition {χ υ π ν : Type} (g : Nat) (d : Dataset χ υ)
    (L : π → Dataset χ υ → List χ → List ν) (p : π) (n_fold : Nat)
    (hn : 0 < n_fold) (hx : d.X.length = d.y.length) :
    (∀ f ∈ (CrossPredict.init g d L p n_fold).folds, ∀ r, r ∈ f.train → r ∉ f.test) ∧
    (∀ f ∈ (CrossPredict.init g d L p n_fold).folds, ∀ r ∈ f.test, r < d.y.length) ∧
    (∀ r, r < d.y.length →
      ∃ k, k < (CrossPredict.init g d L p n_fold).folds.length ∧
        r ∈ ((CrossPredict.init g d L p n_fold).folds.getD k ⟨[], []⟩).test ∧
        ∀ j, j < (CrossPredict.init g d L p n_fold).folds.length →
          r ∈ ((CrossPredict.init g d L p n_fold).folds.getD j ⟨[], []⟩).test → j = k) := by
  have hfolds : (CrossPredict.init g d L p n_fold).folds =
      foldsFromAssign n_fold d.X.length (makeTestFolds (npSeed 0) n_fold d.group) := rfl
  refine ⟨?_, ?_, ?_⟩
  · intro f hf r htr hte
    rw [hfolds] at hf
    obtain ⟨i, _, rfl⟩ := List.mem_map.mp hf
    have h1 := (List.mem_filter.mp htr).2
    have h2 := (List.mem_filter.mp hte).2
    rw [h2] at h1
    exact absurd h1 (by simp)
  · intro f hf r hte
    rw [hfolds] at hf
    obtain ⟨i, _, rfl⟩ := List.mem_map.mp hf
    have h1 := (List.mem_filter.mp hte).1
    rw [← hx]
    exact List.mem_range.mp h1
  · intro r hr
    have hk := @makeTestFolds_lt (npSeed 0) n_fold d.group hn r
    refine ⟨(makeTestFolds (npSeed 0) n_fold d.group).getD r 0, ?_, ?_, ?_⟩
    · rw [hfolds, foldsFromAssign_length]
      exact hk
    · rw [hfolds, foldsFromAssign_getD _ _ _ hk]
      exact List.mem_filter.mpr ⟨List.mem_range.mpr (hx ▸ hr), by simp⟩
    · intro j hj hmem
      rw [hfolds, foldsFromAssign_length] at hj
      rw [hfolds, foldsFromAssign_getD _ _ _ hj] at hmem
      have h4 : (makeTestFolds (npSeed 0) n_fold d.group).getD r 0 = j := by
        simpa using (List.mem_filter.mp hmem).2
      exact h4.symm

/-- Witness for C2 at the concrete harness `cpW`: row 2 lies in the train
set of fold 0, so the theorem puts it outside that fold's test set. -/
theorem init_folds_partition_witness :
    (2 : Nat) ∉ ((CrossPredict.init 0 dW LW 0 2).folds.getD 0 ⟨[], []⟩).test :=
  (init_folds_partition 0 dW LW 0 2 (by decide) rfl).1
    ((CrossPredict.init 0 dW LW 0 2).folds.getD 0 ⟨[], []⟩) (by decide) 2 (by decide)

/-- C5: `np.random.seed(0)` in `__init__` discards the ambient global RNG
state, so two constructions from the same data, learner and parameters
produce identical fold partitions whatever the prior RNG states were. -/
theorem init_folds_deterministic {χ υ π ν : Type} (g₁ g₂ : Nat) (d : Dataset χ υ)
    (L : π → Dataset χ υ → List χ → List ν) (p : π) (n_fold : Nat) :
    (CrossPredict.init g₁ d L p n_fold).folds = (CrossPredict.init g₂ d L p n_fold).folds :=
  rfl

/-- The harness's hyperparameter cell survives any number of training units
untouched. -/
theorem runUnitsHeap_frame {π : Type} (d : π) (r : Nat) :
    ∀ (ms : List (π → π)) (h : List π), r < h.length →
      (runUnitsHeap d r ms h).getD r d = h.getD r d
  | [], _, _ => rfl
  | m :: ms, h, hr => by
    have hf := trainUnitHeap_frame d m hr
    have hstep : runUnitsHeap d r (m :: ms) h
        = runUnitsHeap d r ms (trainUnitHeap d m h r) := rfl
    rw [hstep, runUnitsHeap_frame d r ms _ (by rw [hf.2]; exact Nat.lt_succ_of_lt hr),
      hf.1]

/-- C6: each training unit hands the learner a deep copy holding the same
value as the shared hyperparameter object, and after any number of training
units (each mutating its own copy arbitrarily) the harness's stored
hyperparameter object is unchanged. -/
theorem params_frame_preserved {π : Type} (d : π) (h : List π) (r : Nat)
    (ms : List (π → π)) (hr : r < h.length) :
    (runUnitsHeap d r ms h).getD r d = h.getD r d ∧
      (deepcopyAlloc h r d).1.getD (deepcopyAlloc h r d).2 d = h.getD r d := by
  constructor
  · exact runUnitsHeap_frame d r ms h hr
  · unfold deepcopyAlloc
    rw [List.getD_eq_getElem?_getD, List.getElem?_concat_length]
    rfl

/-- Witness for C6: two mutating training units leave cell 0 of the heap
`[41, 7]` holding `41`. -/
theorem params_frame_preserved_witness :
    (runUnitsHeap 0 0 [fun x => x + 1, fun _ => 99] [41, 7]).getD 0 0 = [41, 7].getD 0 0 ∧
      (deepcopyAlloc [41, 7] 0 0).1.getD (deepcopyAlloc [41, 7] 0 0).2 0 = [41, 7].getD 0 0 :=
  params_frame_preserved 0 [41, 7] 0 [fun x => x + 1, fun _ => 99] (by decide)

/-- C9: a row of the inner join of `analyze_cross_predict_structure` always
comes from a (fold, essay set) key present in both count tables; a key
absent from the test-count table contributes no joined row, hence no ratio. -/
theorem merge_inner_membership :
    (∀ (tr te : List (Nat × Nat × Nat)) (k e tc sc : Nat),
      (k, e, tc, sc) ∈ mergeCounts tr te → (k, e, tc) ∈ tr ∧ (k, e, sc) ∈ te) ∧
    (∀ (tr te : List (Nat × Nat × Nat)) (k e : Nat),
      (∀ c, (k, e, c) ∉ te) → ∀ tc sc, (k, e, tc, sc) ∉ mergeCounts tr te) := by
  have hmain : ∀ (tr te : List (Nat × Nat × Nat)) (k e tc sc : Nat),
      (k, e, tc, sc) ∈ mergeCounts tr te → (k, e, tc) ∈ tr ∧ (k, e, sc) ∈ te := by
    intro tr te k e tc sc hmem
    obtain ⟨a, ha, hsome⟩ := List.mem_filterMap.mp hmem
    obtain ⟨a1, a2, a3⟩ := a
    cases hfind : te.find? (fun b => b.1 == a1 && b.2.1 == a2) with
    | none => rw [hfind] at hsome; exact absurd hsome (by simp)
    | some b =>
      rw [hfind] at hsome
      obtain ⟨b1, b2, b3⟩ := b
      have hp := List.find?_some hfind
      have hb := List.mem_of_find?_eq_some hfind
      have heq : a1 = k ∧ a2 = e ∧ a3 = tc ∧ b3 = sc := by
        have := Option.some.inj hsome
        exact ⟨congrArg Prod.fst this,
          congrArg (fun x => x.2.1) this,
          congrArg (fun x => x.2.2.1) this,
          congrArg (fun x => x.2.2.2) this⟩
      obtain ⟨hk, he, htc, hsc⟩ := heq
      subst hk; subst he; subst htc; subst hsc
      have hp2 : b1 = a1 ∧ b2 = a2 := by simpa using hp
      obtain ⟨hb1, hb2⟩ := hp2
      subst hb1; subst hb2
      exact ⟨ha, hb⟩
  refine ⟨hmain, ?_⟩
  intro tr te k e habs tc sc hmem
  exact habs sc (hmain tr te k e tc sc hmem).2

/-- Witness for C9: in the concrete tables `trW`/`teW` the key (fold 0,
essay set 1) exists only on the train side; the join keeps exactly the
doubly-present key (fold 0, essay set 0). -/
theorem merge_inner_membership_witness :
    ((0, 0, 3) ∈ trW ∧ (0, 0, 3) ∈ teW) ∧ mergeCounts trW teW = [(0, 0, 3, 3)] :=
  ⟨merge_inner_membership.1 trW teW 0 0 3 3 (by decide), by decide⟩

/-- C4: `_train_and_predict_one_fold` aborts with the (bare) assertion error
exactly when the set of essay sets among the fold's train rows differs from
the set among its test rows; when the two sets agree it returns the
concatenation of one train-and-predict call per essay set of the fold. -/
theorem group_mismatch_iff {χ υ π ν : Type} [Inhabited χ] [Inhabited υ]
    (cp : CrossPredict χ υ π ν) (k : Nat) :
    (cp._train_and_predict_one_fold k = .error .assertionError ↔
      (cp.groupsAt (cp.folds.getD k ⟨[], []⟩).train).toFinset ≠
        (cp.groupsAt (cp.folds.getD k ⟨[], []⟩).test).toFinset) ∧
    ((cp.groupsAt (cp.folds.getD k ⟨[], []⟩).train).toFinset =
        (cp.groupsAt (cp.folds.getD k ⟨[], []⟩).test).toFinset →
      cp._train_and_predict_one_fold k =
        .ok ((sortedKeys (cp.groupsAt (cp.folds.getD k ⟨[], []⟩).test)).flatMap (fun e =>
          cp._train_and_predict
            ((cp.folds.getD k ⟨[], []⟩).train.filter (fun r => cp.groupOf r == e))
            ((cp.folds.getD k ⟨[], []⟩).test.filter (fun r => cp.groupOf r == e))))) := by
  by_cases hc : sortedKeys (cp.groupsAt (cp.folds.getD k ⟨[], []⟩).test)
      = sortedKeys (cp.groupsAt (cp.folds.getD k ⟨[], []⟩).train)
  · have hok : cp._train_and_predict_one_fold k =
        .ok ((sortedKeys (cp.groupsAt (cp.folds.getD k ⟨[], []⟩).test)).flatMap (fun e =>
          cp._train_and_predict
            ((cp.folds.getD k ⟨[], []⟩).train.filter (fun r => cp.groupOf r == e))
            ((cp.folds.getD k ⟨[], []⟩).test.filter (fun r => cp.groupOf r == e)))) := by
      unfold CrossPredict._train_and_predict_one_fold
      rw [if_pos hc]
    constructor
    · apply iff_of_false
      · rw [hok]; simp
      · exact not_ne_iff.mpr (sortedKeys_eq_iff.mp hc).symm
    · intro _
      exact hok
  · have herr : cp._train_and_predict_one_fold k = .error .assertionError := by
      unfold CrossPredict._train_and_predict_one_fold
      rw [if_neg hc]
    constructor
    · apply iff_of_true herr
      intro heq
      exact hc (sortedKeys_eq_iff.mpr heq.symm)
    · intro heq
      exact absurd (sortedKeys_eq_iff.mpr heq.symm) hc
  
/-- Witness for C4 at the concrete state `cpC8`: fold 0 has train essay
sets `{0}` and test essay sets `{1}`, so the call aborts. -/
theorem group_mismatch_iff_witness :
    cpC8._train_and_predict_one_fold 0 = .error .assertionError :=
  (group_mismatch_iff cpC8 0).1.mpr (by decide)

/-- C7: `cheat()` calls `_train_and_predict` with the identical row-index
list as both train and test argument for every essay set, and its output
has exactly one record per original dataset row (the `idx` column is a
permutation of the full index range). -/
theorem cheat_in_sample_covers_rows {χ υ π ν : Type} [Inhabited χ] [Inhabited υ]
    (cp : CrossPredict χ υ π ν)
    (hL : ∀ (q : π) (dd : Dataset χ υ) (xs : List χ), (cp.Learner q dd xs).length = xs.length) :
    cp.cheat = (sortedKeys (cp.groupsAt (List.range cp.data.y.length))).flatMap
        (fun e => cp._train_and_predict (cp.groupRows e) (cp.groupRows e)) ∧
      (cp.cheat.map (fun rec => rec.idx)).Perm (List.range cp.data.y.length) := by
  constructor
  · rfl
  · unfold CrossPredict.cheat
    rw [List.map_flatMap]
    have hcg : ∀ e ∈ sortedKeys (cp.groupsAt (List.range cp.data.y.length)),
        (cp._train_and_predict
          ((List.range cp.data.y.length).filter (fun r => cp.groupOf r == e))
          ((List.range cp.data.y.length).filter (fun r => cp.groupOf r == e))).map
            (fun rec => rec.idx)
          = (List.range cp.data.y.length).filter (fun r => cp.groupOf r == e) := by
      intro e _
      exact train_and_predict_map_idx cp hL _ _
    rw [flatMap_congr hcg]
    exact partitionPerm (sortedKeys_nodup _)
      (fun x hx => mem_sortedKeys.mpr (List.mem_map.mpr ⟨x, hx, rfl⟩))

/-- Witness for C7: on the concrete harness `cpW`, `cheat()` covers each of
the four rows exactly once. -/
theorem cheat_in_sample_covers_rows_witness :
    (cpW.cheat.map (fun rec => rec.idx)).Perm (List.range cpW.data.y.length) :=
  (cheat_in_sample_covers_rows cpW (fun _ _ xs => List.length_map xs _)).2

/-- C8 counterexample: two different failing (fold, group) contexts of the
same harness state surface the very same error value — the bare
`AssertionError()` of the source carries neither the fold index nor the
group label. -/
theorem harness_errors_carry_no_context_cex :
    cpC8._train_and_predict_one_fold 0 = .error PyError.assertionError ∧
      cpC8._train_and_predict_one_fold 1 = .error PyError.assertionError ∧
      cpC8._train_and_predict_one_fold 0 = cpC8._train_and_predict_one_fold 1 :=
  ⟨rfl, rfl, rfl⟩

/-- C8 (amended): every failure of the harness — the group-mismatch check in
`_train_and_predict_one_fold` and the degenerate-split check run at
construction time — is surfaced immediately as a bare assertion error that
carries no fold index and no group label. -/
theorem harness_errors_are_bare_asserts {χ υ π ν : Type} [Inhabited χ] [Inhabited υ] :
    (∀ (cp : CrossPredict χ υ π ν) (k : Nat) (e : PyError),
      cp._train_and_predict_one_fold k = .error e → e = PyError.assertionError) ∧
    (∀ (g : Nat) (d : Dataset χ υ) (L : π → Dataset χ υ → List χ → List ν)
      (p : π) (n_fold : Nat) (e : PyError),
      CrossPredict.initChecked g d L p n_fold = .error e → e = PyError.assertionError) :=
  ⟨fun _ _ e _ => by cases e; rfl, fun _ _ _ _ _ e _ => by cases e; rfl⟩

/-- Witness for the amended C8 at the failing fold 0 of `cpC8`. -/
theorem harness_errors_are_bare_asserts_witness :
    PyError.assertionError = PyError.assertionError :=
  (@harness_errors_are_bare_asserts Nat Nat Nat Nat _ _).1 cpC8 0 PyError.assertionError rfl

/-- C3: when the joined ratio table is nonempty (some (fold, essay set) key
occurs on both the train and the test side), harness construction fails
with the degenerate-split assertion exactly when
`max_ratio / min_ratio >= 1.02`; otherwise it succeeds through the
structural check. -/
theorem degenerate_split_iff {χ υ π ν : Type} (g : Nat) (d : Dataset χ υ)
    (L : π → Dataset χ υ → List χ → List ν) (p : π) (n_fold : Nat)
    (hne : (CrossPredict.init g d L p n_fold).ratios ≠ []) :
    (CrossPredict.initChecked g d L p n_fold = Except.error PyError.assertionError ↔
      51 / 50 ≤ (CrossPredict.init g d L p n_fold).max_ratio
        / (CrossPredict.init g d L p n_fold).min_ratio) := by
  by_cases hc : (CrossPredict.init g d L p n_fold).max_ratio
      / (CrossPredict.init g d L p n_fold).min_ratio < 51 / 50
  · have ha : (CrossPredict.init g d L p n_fold).analyze_cross_predict_structure
        = Except.ok (CrossPredict.init g d L p n_fold).merged := by
      unfold CrossPredict.analyze_cross_predict_structure
      rw [if_pos ⟨hne, hc⟩]
    unfold CrossPredict.initChecked
    rw [ha]
    exact iff_of_false (by simp) (not_le.mpr hc)
  · have ha : (CrossPredict.init g d L p n_fold).analyze_cross_predict_structure
        = Except.error PyError.assertionError := by
      unfold CrossPredict.analyze_cross_predict_structure
      rw [if_neg (fun hand => hc hand.2)]
    unfold CrossPredict.initChecked
    rw [ha]
    exact iff_of_true rfl (not_lt.mp hc)

/-- Witness for C3 at the concrete harness on `dW` with two folds: both
(fold, essay set) ratios equal 1, the spread is within tolerance, and
construction succeeds. -/
theorem degenerate_split_iff_witness :
    CrossPredict.initChecked 0 dW LW 0 2 ≠ Except.error PyError.assertionError := by
  intro herr
  have hle := (degenerate_split_iff 0 dW LW 0 2 (by decide)).mp herr
  have hr : (CrossPredict.init 0 dW LW 0 2).ratios
      = [((2 : Nat) : ℚ) / ((2 : Nat) : ℚ), ((2 : Nat) : ℚ) / ((2 : Nat) : ℚ)] := rfl
  have hmax : (CrossPredict.init 0 dW LW 0 2).max_ratio = 1 := by
    simp only [CrossPredict.max_ratio, hr]
    norm_num
  have hmin : (CrossPredict.init 0 dW LW 0 2).min_ratio = 1 := by
    simp only [CrossPredict.min_ratio, hr]
    norm_num
  rw [hmax, hmin] at hle
  norm_num at hle

/-- C10: `token_features` yields one row per input document in input order;
the row holds `np.mean` and `np.std` of the document's token lengths, and a
document with zero tokens yields `NaN` statistics (not an error). -/
theorem token_features_rows (dl : List (List String)) :
    (token_features dl).length = dl.length ∧
    (∀ i, i < dl.length → (token_features dl).getD i (none, none) =
      (npMean ((dl.getD i []).map String.length),
       npStd ((dl.getD i []).map String.length))) ∧
    (∀ i, i < dl.length → dl.getD i [] = [] →
      (token_features dl).getD i (none, none) = (none, none)) := by
  have hmid : ∀ i, i < dl.length → (token_features dl).getD i (none, none) =
      (npMean ((dl.getD i []).map String.length),
       npStd ((dl.getD i []).map String.length)) := by
    intro i hi
    unfold token_features
    rw [List.getD_eq_getElem?_getD, List.getElem?_map, List.getElem?_eq_getElem hi,
      List.getD_eq_getElem dl [] hi]
    rfl
  refine ⟨List.length_map dl _, hmid, ?_⟩
  intro i hi hempty
  rw [hmid i hi, hempty]
  simp [npMean, npStd]

/-- Witness for C10 on the concrete corpus `dlW`: two rows come out, and the
empty second document yields the `NaN` row rather than an error. -/
theorem token_features_rows_witness :
    (token_features dlW).length = dlW.length ∧
      (token_features dlW).getD 1 (none, none) = (none, none) :=
  ⟨(token_features_rows dlW).1, (token_features_rows dlW).2.2 1 (by decide) rfl⟩

/-- C1: on every constructed harness whose learner satisfies the
one-prediction-per-row contract, a returning `cross_predict()` call yields
exactly one Prediction Record per dataset row, with the `idx` column equal
to `[0, ..., R-1]` — i.e. a permutation of the full index range sorted in
ascending original row order, whatever the fold/group iteration order
produced the records. -/
theorem cross_predict_returns_sorted_range {χ υ π ν : Type} [Inhabited χ] [Inhabited υ]
    (g : Nat) (d : Dataset χ υ) (L : π → Dataset χ υ → List χ → List ν) (p : π)
    (n_fold : Nat) (hn : 0 < n_fold) (hx : d.X.length = d.y.length)
    (hL : ∀ (q : π) (dd : Dataset χ υ) (xs : List χ), (L q dd xs).length = xs.length)
    (recs : List (Record ν υ))
    (hok : (CrossPredict.init g d L p n_fold).cross_predict = .ok recs) :
    recs.length = d.y.length ∧
      recs.map (fun rec => rec.idx) = List.range d.y.length := by
  have hL2 : ∀ (q : π) (dd : Dataset χ υ) (xs : List χ),
      ((CrossPredict.init g d L p n_fold).Learner q dd xs).length = xs.length := hL
  have hfolds : (CrossPredict.init g d L p n_fold).folds =
      foldsFromAssign n_fold d.X.length (makeTestFolds (npSeed 0) n_fold d.group) := rfl
  unfold CrossPredict.cross_predict at hok
  cases h1 : allFoldResults (CrossPredict.init g d L p n_fold)
      (List.range (CrossPredict.init g d L p n_fold).folds.length) with
  | error e =>
    rw [h1] at hok
    exact absurd hok (by simp)
  | ok rss =>
    rw [h1] at hok
    have hrecs : recs = List.insertionSort recordLe rss.flatten := (Except.ok.inj hok).symm
    have hperm1 : (recs.map (fun rec => rec.idx)).Perm
        (rss.flatten.map (fun rec => rec.idx)) := by
      rw [hrecs]
      exact (List.perm_insertionSort recordLe rss.flatten).map (fun rec => rec.idx)
    have hperm2 := allFoldResults_ok_perm (CrossPredict.init g d L p n_fold) hL2 _ rss h1
    have hlen : (CrossPredict.init g d L p n_fold).folds.length = n_fold := by
      rw [hfolds, foldsFromAssign_length]
    have hflat : (List.range n_fold).flatMap
        (fun k => ((CrossPredict.init g d L p n_fold).folds.getD k ⟨[], []⟩).test)
        = (List.range n_fold).flatMap
          (fun k => (List.range d.X.length).filter
            (fun r => (makeTestFolds (npSeed 0) n_fold d.group).getD r 0 == k)) := by
      apply flatMap_congr
      intro k hk
      rw [hfolds, foldsFromAssign_getD _ _ _ (List.mem_range.mp hk)]
    have hperm3 : (recs.map (fun rec => rec.idx)).Perm (List.range d.y.length) := by
      refine (hperm1.trans ?_)
      rw [hlen] at hperm2
      refine hperm2.trans ?_
      rw [hflat, ← hx]
      exact tests_perm n_fold d.X.length _ (makeTestFolds_lt hn)
    have hsorted : List.Sorted (· ≤ ·) (recs.map (fun rec => rec.idx)) := by
      rw [hrecs]
      exact @List.Pairwise.map Nat (Record ν υ) recordLe
        (List.insertionSort recordLe rss.flatten) (· ≤ ·)
        (fun rec => rec.idx) (fun _ _ hab => hab)
        (List.sorted_insertionSort recordLe rss.flatten)
    have hmap : recs.map (fun rec => rec.idx) = List.range d.y.length :=
      List.eq_of_perm_of_sorted hperm3 hsorted (sorted_le_range d.y.length)
    refine ⟨?_, hmap⟩
    rw [← List.length_map recs (fun rec => rec.idx), hmap, List.length_range]

/-- The four records `cross_predict()` produces on the concrete harness
`cpW`, already in ascending `idx` order. -/
def recsW : List (Record Nat Nat) :=
  [⟨0, 5, 0, 0⟩, ⟨0, 6, 1, 0⟩, ⟨0, 7, 2, 0⟩, ⟨0, 8, 3, 0⟩]

/-- Witness for C1: on `cpW` (four rows, two folds) `cross_predict()`
returns `recsW`, whose `idx` column is exactly `[0, 1, 2, 3]`. -/
theorem cross_predict_returns_sorted_range_witness :
    cpW.cross_predict = .ok recsW ∧
      recsW.length = dW.y.length ∧
      recsW.map (fun rec => rec.idx) = List.range dW.y.length := by
  have h := cross_predict_returns_sorted_range 0 dW LW 0 2 (by decide) rfl
    (fun _ _ xs => List.length_map xs _) recsW rfl
  exact ⟨rfl, h.1, h.2⟩
